import Mathlib

/-!
Shallow embedding of the `ObjectPool` class from `src/index.ts` of the
`@rbxts/allocator` package, together with theorems checking the
natural-language specification against it.

Modelling conventions:
* Instance records (`IObjectPoolInstance`) are heap objects shared by
  reference between the two lists and the registry map.  The model keeps a
  single `heap` association list keyed by `CreationId`; the Free List
  (`instances_list_`), the Used List (`used_instances_list_`) and the key set
  of the registry (`instances_map_`) store creation ids.  Reading a field
  through a reference is `alookup` in the heap (possible even after the map
  entry was deleted, as for a live TS object reference); `instances_map_.get`
  additionally requires the key to still be registered.
* The caller-supplied hooks `Create` / `Start` / `Dispose` / `Destroy` are
  external collaborators; the model records each invocation in an append-only
  event log, identifying the opaque `Value` of an instance by its creation id.
* `assert` failures (fatal errors) are modelled by `Option`: `none` means the
  call halted with an error.
* Array operations follow roblox-ts semantics: `pop` removes the last
  element, `shift` the first, `push` appends, and
  `list.remove(list.indexOf(x))` erases the first occurrence of `x` (a no-op
  when `x` is absent, since `table.remove` with position `0` does nothing).
* `for (const x of list)` compiles to an `ipairs`-style traversal: the index
  advances by one each step and the current element is re-read from the live
  list, so removing the current element shifts its successor into the already
  visited slot.  The loops in `DestroyPool` are modelled with exactly this
  index-based semantics (`destroyUsedLoop`, `destroyFreeLoop`).
-/

/-- `EObjectPoolType` from the source. -/
inductive EObjectPoolType where
  | Unbounded
  | Elastic
  | Fixed
  | FailSilent
deriving DecidableEq

/-- The bookkeeping fields of `IObjectPoolInstance` (the opaque `Value` is
identified by `creationId`). -/
structure Inst where
  creationId : Nat
  useId : Nat
  isActive : Bool
deriving DecidableEq

/-- One invocation of a caller-supplied lifecycle hook, recorded in program
order.  `created cid` is a `Create` call that built the value of instance
`cid`; `started cid uid` is a `Start` call on instance `cid` while its
`UseId` was `uid`; `disposed cid` is a `Dispose` call; `destroyed cid` is a
`Destroy` call. -/
inductive PoolEvent where
  | created (cid : Nat)
  | started (cid uid : Nat)
  | disposed (cid : Nat)
  | destroyed (cid : Nat)
deriving DecidableEq

/-- The mutable fields of an `ObjectPool` object plus the hook log. -/
structure PoolState where
  /-- all instance records ever constructed, keyed by creation id -/
  heap : List (Nat × Inst)
  /-- key set of `instances_map_` -/
  registry : List Nat
  /-- `instances_list_` (the Free List), creation ids in array order -/
  freeList : List Nat
  /-- `used_instances_list_` (the Used List), creation ids in array order -/
  usedList : List Nat
  /-- `creation_id_` counter -/
  creationId : Nat
  /-- `is_destroyed_` -/
  isDestroyed : Bool
  /-- `is_started_` -/
  isStarted : Bool
  /-- chronological log of hook invocations -/
  events : List PoolEvent
deriving DecidableEq

/-- The constructor arguments: `initial_pool_size_` and `object_pool_type_`.
The size is an `Int` so that non-positive configurations can be stated. -/
structure Config where
  initialPoolSize : Int
  poolType : EObjectPoolType
deriving DecidableEq

/-- Association-list lookup, the model of reading through a reference /
`Map.get` on the heap. -/
def alookup (cid : Nat) : List (Nat × Inst) → Option Inst
  | [] => none
  | p :: t => if p.1 = cid then some p.2 else alookup cid t

/-- Association-list update, the model of `Map.set` and of mutating a field
of a heap object in place. -/
def aset (cid : Nat) (v : Inst) (h : List (Nat × Inst)) : List (Nat × Inst) :=
  if h.any (fun p => p.1 = cid) then
    h.map (fun p => if p.1 = cid then (cid, v) else p)
  else h ++ [(cid, v)]

/-- Adding a key to the registry key set (`Map.set` on the key level). -/
def registryAdd (r : List Nat) (cid : Nat) : List Nat :=
  if r.contains cid then r else r ++ [cid]

/-- `instances_map_.get cid`: defined only while the key is registered. -/
def mapGet (s : PoolState) (cid : Nat) : Option Inst :=
  if s.registry.contains cid then alookup cid s.heap else none

/-- A fresh pool object right after the constructor ran. -/
def initialState : PoolState :=
  { heap := [], registry := [], freeList := [], usedList := [],
    creationId := 0, isDestroyed := false, isStarted := false, events := [] }

/-- `CreateInstance` (lines 167-177): allocate the next creation id, run the
caller's `Create` hook, register the record.  Returns the new creation id. -/
def createInstance (s : PoolState) : PoolState × Nat :=
  let cid := s.creationId
  ({ s with creationId := cid + 1,
            heap := aset cid ⟨cid, 0, false⟩ s.heap,
            registry := registryAdd s.registry cid,
            events := s.events ++ [PoolEvent.created cid] }, cid)

/-- Mutating `instance.IsActive` through a reference. -/
def setActive (s : PoolState) (cid : Nat) (b : Bool) : PoolState :=
  match alookup cid s.heap with
  | none => s
  | some inst => { s with heap := aset cid { inst with isActive := b } s.heap }

/-- `DisposeOfInstance` (lines 113-117): bump `UseId`, clear `IsActive`, run
the caller's `Dispose` hook. -/
def disposeOfInstance (s : PoolState) (cid : Nat) : PoolState :=
  match alookup cid s.heap with
  | none => s
  | some inst =>
      { s with
        heap := aset cid { inst with useId := inst.useId + 1, isActive := false } s.heap,
        events := s.events ++ [PoolEvent.disposed cid] }

/-- `DestroyInstance` (lines 119-123): delete the registry entry, run the
caller's `Destroy` hook, erase the first occurrence in the Free List (a no-op
when absent). -/
def destroyInstance (s : PoolState) (cid : Nat) : PoolState :=
  { s with registry := s.registry.filter (fun x => decide (x ≠ cid)),
           events := s.events ++ [PoolEvent.destroyed cid],
           freeList := s.freeList.erase cid }

/-- `FreeInstance` (lines 125-137): remove from the Used List, dispose, then
apply the Elastic shrink rule (`instances_list_.size() >= initial_pool_size_`
checked before pushing back) or push onto the Free List. -/
def freeInstance (cfg : Config) (s : PoolState) (cid : Nat) : PoolState :=
  let s1 := { s with usedList := s.usedList.erase cid }
  let s2 := disposeOfInstance s1 cid
  if cfg.poolType = EObjectPoolType.Elastic ∧
      cfg.initialPoolSize ≤ (s2.freeList.length : Int) then
    destroyInstance s2 cid
  else
    { s2 with freeList := s2.freeList ++ [cid] }

/-- The Disposal Channel listener attached in `Init` (lines 93-98): look the
creation id up in the registry, drop stale signals, otherwise free. -/
def handleDisposeSignal (cfg : Config) (s : PoolState) (cid uid : Nat) : PoolState :=
  match mapGet s cid with
  | none => s
  | some inst => if inst.useId ≠ uid then s else freeInstance cfg s cid

/-- The dispose capability closure handed to `Start` (lines 33-40): it holds
a reference to the instance and the `UseId` captured at allocation; a
mismatching current `UseId` only warns, otherwise the closure fires the
Disposal Channel with the current ids and the listener runs. -/
def invokeDispose (cfg : Config) (s : PoolState) (cid capturedUid : Nat) : PoolState :=
  match alookup cid s.heap with
  | none => s
  | some inst =>
      if inst.useId ≠ capturedUid then s
      else handleDisposeSignal cfg s cid inst.useId

/-- `AllocateInstance` (lines 139-165).  Returns the creation id of the
allocated instance, or `none` when nothing was allocated. -/
def allocateInstance (cfg : Config) (s : PoolState) : PoolState × Option Nat :=
  match s.freeList.getLast? with
  | some cid =>
      let s1 := { s with freeList := s.freeList.dropLast,
                         usedList := s.usedList ++ [cid] }
      (setActive s1 cid true, some cid)
  | none =>
      match cfg.poolType with
      | EObjectPoolType.FailSilent => (s, none)
      | EObjectPoolType.Fixed =>
          match s.usedList.head? with
          | none => (s, none)
          | some cid =>
              let s1 := { s with usedList := s.usedList.tail ++ [cid] }
              let s2 := disposeOfInstance s1 cid
              (setActive s2 cid true, some cid)
      | _ =>
          let p := createInstance s
          ({ p.1 with usedList := p.1.usedList ++ [p.2] }, some p.2)

/-- One step of the eager construction loop in `Init` (lines 65-68):
`CreateInstance` then push onto the Free List. -/
def initStep (s : PoolState) : PoolState :=
  let p := createInstance s
  { p.1 with freeList := p.1.freeList ++ [p.2] }

/-- The `$range(0, initial_pool_size_ - 1)` loop of `Init`. -/
def initLoop : Nat → PoolState → PoolState
  | 0, s => s
  | n + 1, s => initLoop n (initStep s)

/-- `Init` (lines 58-99): at most once, fatal when already destroyed or when
the configured size is not positive; otherwise construct
`initial_pool_size_` instances onto the Free List. -/
def init (cfg : Config) (s : PoolState) : Option PoolState :=
  if s.isStarted then some s
  else if s.isDestroyed then none
  else if cfg.initialPoolSize ≤ 0 then none
  else some (initLoop cfg.initialPoolSize.toNat { s with isStarted := true })

/-- The body of `Use` after the lazy-`Init` line (lines 28-40): fatal when
destroyed, allocate, and when an instance was produced run the caller's
`Start` hook with its current `UseId`. -/
def useStarted (cfg : Config) (s : PoolState) : Option PoolState :=
  if s.isDestroyed then none
  else
    let p := allocateInstance cfg s
    match p.2 with
    | none => some p.1
    | some cid =>
        let uid := match alookup cid p.1.heap with
                   | some inst => inst.useId
                   | none => 0
        some { p.1 with events := p.1.events ++ [PoolEvent.started cid uid] }

/-- `Use` (lines 25-41): lazily initialize, then `useStarted`. -/
def use (cfg : Config) (s : PoolState) : Option PoolState :=
  match (if s.isStarted then some s else init cfg s) with
  | none => none
  | some s0 => useStarted cfg s0

/-- Iterating `Use` from a fresh pool. -/
def useTimes (cfg : Config) : Nat → Option PoolState
  | 0 => some initialState
  | k + 1 => (useTimes cfg (k : Nat)).bind (use cfg)

/-- The `for (const used_instance of this.used_instances_list_)` loop of
`DestroyPool` (lines 182-185), with ipairs-style index traversal: the body
(`DisposeOfInstance` then `DestroyInstance`) never mutates the Used List
itself.  `fuel` bounds the iteration count. -/
def destroyUsedLoop : Nat → Nat → PoolState → PoolState
  | 0, _, s => s
  | fuel + 1, i, s =>
      match s.usedList.get? i with
      | none => s
      | some cid =>
          destroyUsedLoop fuel (i + 1) (destroyInstance (disposeOfInstance s cid) cid)

/-- The `for (const instance of this.instances_list_)` loop of `DestroyPool`
(lines 186-188), with ipairs-style index traversal: here the body
(`DestroyInstance`) erases the current element from the very list being
iterated, so the element shifted into the current slot is skipped. -/
def destroyFreeLoop : Nat → Nat → PoolState → PoolState
  | 0, _, s => s
  | fuel + 1, i, s =>
      match s.freeList.get? i with
      | none => s
      | some cid => destroyFreeLoop fuel (i + 1) (destroyInstance s cid)

/-- `DestroyPool` (lines 180-196); it does not consult the strategy or the
configured size. -/
def destroyPool (s : PoolState) : PoolState :=
  if s.isDestroyed then s
  else
    let s1 := destroyUsedLoop (s.usedList.length + 1) 0 s
    let s2 := destroyFreeLoop (s1.freeList.length + 1) 0 s1
    { s2 with usedList := [], freeList := [], isDestroyed := true }

/-- The pool state right after the eager construction loop of `Init` has run
`j` times from a fresh pool: instances `0 … j-1` constructed, registered and
pushed onto the Free List in creation order. -/
def initedState (j : Nat) : PoolState :=
  { heap := (List.range j).map fun i => (i, ⟨i, 0, false⟩),
    registry := List.range j,
    freeList := List.range j,
    usedList := [],
    creationId := j,
    isDestroyed := false,
    isStarted := true,
    events := (List.range j).map PoolEvent.created }

/-- The pool state of a size-`N` pool after initialization and `k ≤ N`
overlapping `Use` calls: the Free List still holds `0 … N-k-1`, the Used List
holds `N-1, N-2, …, N-k` in allocation order, and exactly the popped
instances are active. -/
def expectedState (N k : Nat) : PoolState :=
  { heap := (List.range N).map fun i => (i, ⟨i, 0, decide (N - k ≤ i)⟩),
    registry := List.range N,
    freeList := List.range (N - k),
    usedList := (List.range k).map fun j => N - 1 - j,
    creationId := N,
    isDestroyed := false,
    isStarted := true,
    events := (List.range N).map PoolEvent.created
        ++ (List.range k).map fun j => PoolEvent.started (N - 1 - j) 0 }

/-- Concrete state: a size-2 Fixed pool after three `Use` calls (instance 1
has been force-recycled and reallocated, so a signal for its generation 0 is
stale). -/
def fixedPoolAfterThreeUses : PoolState :=
  (useTimes ⟨2, EObjectPoolType.Fixed⟩ 3).getD initialState

/-- Concrete state: a size-1 Elastic pool after one `Use` call (Free List
empty, instance 0 in use with `UseId` 0). -/
def elasticPoolAfterOneUse : PoolState :=
  (useTimes ⟨1, EObjectPoolType.Elastic⟩ 1).getD initialState

/-! ### Helper lemmas about the association-list heap -/

theorem alookup_append_left {cid : Nat} {v : Inst} {l1 l2 : List (Nat × Inst)}
    (h : alookup cid l1 = some v) : alookup cid (l1 ++ l2) = some v := by
  induction l1 with
  | nil => simp [alookup] at h
  | cons p t ih =>
      by_cases hp : p.1 = cid
      · simp [alookup, hp] at h ⊢
        exact h
      · simp [alookup, hp] at h ⊢
        exact ih h

theorem alookup_append_right {cid : Nat} {l1 l2 : List (Nat × Inst)}
    (h : alookup cid l1 = none) : alookup cid (l1 ++ l2) = alookup cid l2 := by
  induction l1 with
  | nil => rfl
  | cons p t ih =>
      by_cases hp : p.1 = cid
      · simp [alookup, hp] at h
      · simp [alookup, hp] at h ⊢
        exact ih h

theorem alookup_range_map_none (f : Nat → Inst) :
    ∀ N c : Nat, N ≤ c →
      alookup c ((List.range N).map fun i => (i, f i)) = none := by
  intro N
  induction N with
  | zero => intro c _; rfl
  | succ N ih =>
      intro c hc
      rw [List.range_succ, List.map_append,
        alookup_append_right (ih c (by omega))]
      have : N ≠ c := by omega
      simp [alookup, this]

theorem alookup_range_map (f : Nat → Inst) :
    ∀ N c : Nat, c < N →
      alookup c ((List.range N).map fun i => (i, f i)) = some (f c) := by
  intro N
  induction N with
  | zero => intro c hc; omega
  | succ N ih =>
      intro c hc
      rw [List.range_succ, List.map_append]
      by_cases h : c < N
      · exact alookup_append_left (ih c h)
      · have hcN : c = N := by omega
        subst hcN
        rw [alookup_append_right (alookup_range_map_none f c c le_rfl)]
        simp [alookup]

theorem aset_range_map (f : Nat → Inst) (N c : Nat) (v : Inst) (h : c < N) :
    aset c v ((List.range N).map fun i => (i, f i))
      = (List.range N).map fun i => (i, if i = c then v else f i) := by
  unfold aset
  rw [if_pos ?pos]
  case pos =>
    rw [List.any_eq_true]
    exact ⟨(c, f c), List.mem_map.2 ⟨c, List.mem_range.2 h, rfl⟩, by simp⟩
  rw [List.map_map]
  refine List.map_congr_left ?_
  intro i _
  by_cases hic : i = c
  · subst hic; simp
  · simp [Function.comp, hic]

theorem aset_range_map_fresh (f : Nat → Inst) (N : Nat) (v : Inst) :
    aset N v ((List.range N).map fun i => (i, f i))
      = ((List.range N).map fun i => (i, f i)) ++ [(N, v)] := by
  unfold aset
  rw [if_neg ?neg]
  case neg =>
    rw [List.any_eq_true]
    rintro ⟨p, hp, hpc⟩
    obtain ⟨i, hi, rfl⟩ := List.mem_map.1 hp
    have := List.mem_range.1 hi
    simp at hpc
    omega

theorem registryAdd_range (j : Nat) :
    registryAdd (List.range j) j = List.range (j + 1) := by
  unfold registryAdd
  rw [if_neg ?neg, List.range_succ]
  case neg =>
    simp [List.contains_eq_any_beq]

/-! ### Claim C1: stale disposal signals are ignored -/

/-- Claim C1: across all pool states, a disposal signal carrying
`(creation_id, use_id)` runs the `Dispose` / `Destroy` hooks only if the
Registry still contains `creation_id` and the stored `UseId` equals the
signal's `use_id`; a stale signal (registry miss or generation mismatch)
leaves the whole pool state — Free List, Used List, Registry and hook log —
unchanged.  In particular a delayed signal for a previous generation of a
reallocated instance does nothing. -/
theorem c1_stale_signal_ignored (cfg : Config) (s : PoolState) (cid uid : Nat)
    (h : mapGet s cid = none ∨
      ∃ inst, mapGet s cid = some inst ∧ inst.useId ≠ uid) :
    handleDisposeSignal cfg s cid uid = s := by
  unfold handleDisposeSignal
  rcases h with h | ⟨inst, hinst, hne⟩
  · rw [h]
  · rw [hinst]
    simp [hne]

/-- Witness for C1: in a size-2 Fixed pool after three `Use` calls, instance
1 was disposed (generation advanced to 1) and reallocated; the delayed signal
`(1, 0)` for its previous generation changes nothing. -/
theorem c1_stale_signal_ignored_witness :
    handleDisposeSignal ⟨2, EObjectPoolType.Fixed⟩ fixedPoolAfterThreeUses 1 0
      = fixedPoolAfterThreeUses :=
  c1_stale_signal_ignored ⟨2, EObjectPoolType.Fixed⟩ fixedPoolAfterThreeUses 1 0
    (Or.inr ⟨⟨1, 1, true⟩, by decide, by decide⟩)

/-! ### Claim C2: the concrete size-2 Fixed scenario -/

/-- Claim C2 counterexample: the claim says the first `Use` on a size-2 Fixed
pool allocates the instance with `CreationId` 0.  It does not: the Free List
is a stack holding `[0, 1]` after initialization, so the first `Use` pops and
starts the instance with `CreationId` 1. -/
theorem c2_counterexample :
    (useTimes ⟨2, EObjectPoolType.Fixed⟩ 1).map PoolState.usedList = some [1] ∧
    (useTimes ⟨2, EObjectPoolType.Fixed⟩ 1).map PoolState.events
      = some [PoolEvent.created 0, PoolEvent.created 1, PoolEvent.started 1 0] ∧
    (useTimes ⟨2, EObjectPoolType.Fixed⟩ 1).map PoolState.usedList ≠ some [0] := by
  decide

/-- Claim C2 amended: pool size 2, strategy Fixed, from the uninitialized
state.  The first `Use` allocates the instance with `CreationId` 1 and
`UseId` 0; the second `Use` allocates the instance with `CreationId` 0; the
third `Use` force-disposes the instance with `CreationId` 1 (`Dispose` runs
and its `UseId` becomes 1), reactivates it with `UseId` 1 and moves it to the
back of the Used List, while the instance with `CreationId` 0 is left
completely unchanged. -/
theorem c2_amended_scenario :
    (useTimes ⟨2, EObjectPoolType.Fixed⟩ 1).map PoolState.usedList = some [1] ∧
    (useTimes ⟨2, EObjectPoolType.Fixed⟩ 1).bind (fun s => alookup 1 s.heap)
      = some ⟨1, 0, true⟩ ∧
    (useTimes ⟨2, EObjectPoolType.Fixed⟩ 2).map PoolState.usedList = some [1, 0] ∧
    (useTimes ⟨2, EObjectPoolType.Fixed⟩ 3).map PoolState.usedList = some [0, 1] ∧
    (useTimes ⟨2, EObjectPoolType.Fixed⟩ 3).bind (fun s => alookup 1 s.heap)
      = some ⟨1, 1, true⟩ ∧
    (useTimes ⟨2, EObjectPoolType.Fixed⟩ 3).map PoolState.events
      = some [PoolEvent.created 0, PoolEvent.created 1, PoolEvent.started 1 0,
              PoolEvent.started 0 0, PoolEvent.disposed 1, PoolEvent.started 1 1] ∧
    (useTimes ⟨2, EObjectPoolType.Fixed⟩ 3).bind (fun s => alookup 0 s.heap)
      = (useTimes ⟨2, EObjectPoolType.Fixed⟩ 2).bind (fun s => alookup 0 s.heap) ∧
    (useTimes ⟨2, EObjectPoolType.Fixed⟩ 3).map PoolState.registry
      = (useTimes ⟨2, EObjectPoolType.Fixed⟩ 2).map PoolState.registry := by
  decide

/-! ### Claim C9: DestroyPool is idempotent -/

/-- Claim C9: `DestroyPool` is idempotent — a second call returns at the
`is_destroyed_` guard, so it invokes no additional `Dispose` / `Destroy`
hooks and leaves the state exactly as the first call left it. -/
theorem c9_destroy_pool_idempotent (s : PoolState) :
    destroyPool (destroyPool s) = destroyPool s := by
  by_cases h : s.isDestroyed
  · simp [destroyPool, h]
  · simp [destroyPool, h]

/-! ### Claim C3: the Elastic shrink rule -/

/-- Unfolding `DisposeOfInstance` when the instance record exists. -/
theorem disposeOfInstance_eq (s : PoolState) (cid : Nat) (inst : Inst)
    (h : alookup cid s.heap = some inst) :
    disposeOfInstance s cid
      = { s with heap := aset cid ⟨inst.creationId, inst.useId + 1, false⟩ s.heap,
                 events := s.events ++ [PoolEvent.disposed cid] } := by
  unfold disposeOfInstance
  rw [h]

/-- Claim C3 counterexample: size-1 Elastic pool, one `Use` (Free List
empty), then the valid disposal signal `(0, 0)`.  Adding the instance back
makes the Free List size reach `initial_pool_size` (0 + 1 = 1), so the claim
says it must be destroyed; the code compares the size before pushing
(`size() >= initial_pool_size_`), finds 0 < 1, and pushes it back instead:
no `Destroy` hook runs and the instance stays registered. -/
theorem c3_counterexample :
    (useTimes ⟨1, EObjectPoolType.Elastic⟩ 1).bind (fun s => mapGet s 0)
      = some ⟨0, 0, true⟩ ∧
    (useTimes ⟨1, EObjectPoolType.Elastic⟩ 1).map PoolState.freeList = some [] ∧
    ((useTimes ⟨1, EObjectPoolType.Elastic⟩ 1).map
      (fun s => handleDisposeSignal ⟨1, EObjectPoolType.Elastic⟩ s 0 0)).map
        PoolState.freeList = some [0] ∧
    ((useTimes ⟨1, EObjectPoolType.Elastic⟩ 1).map
      (fun s => handleDisposeSignal ⟨1, EObjectPoolType.Elastic⟩ s 0 0)).map
        PoolState.registry = some [0] ∧
    ((useTimes ⟨1, EObjectPoolType.Elastic⟩ 1).map
      (fun s => handleDisposeSignal ⟨1, EObjectPoolType.Elastic⟩ s 0 0)).map
        PoolState.events
      = some [PoolEvent.created 0, PoolEvent.started 0 0, PoolEvent.disposed 0] := by
  decide

/-- Claim C3 amended: when a valid disposal signal frees an instance, the
instance is destroyed (teardown hook invoked, registry entry deleted) if and
only if the strategy is Elastic and the Free List's size would *strictly
exceed* `initial_pool_size` after adding this instance back — equivalently,
the Free List already holds at least `initial_pool_size` entries before the
push; otherwise (including all other strategies) the freed instance is pushed
onto the back of the Free List. -/
theorem c3_amended_elastic_shrink (cfg : Config) (s : PoolState) (cid uid : Nat)
    (inst : Inst) (hmap : mapGet s cid = some inst) (huid : inst.useId = uid) :
    (cfg.poolType = EObjectPoolType.Elastic ∧
        cfg.initialPoolSize ≤ (s.freeList.length : Int) →
      (handleDisposeSignal cfg s cid uid).events
          = s.events ++ [PoolEvent.disposed cid, PoolEvent.destroyed cid] ∧
      (handleDisposeSignal cfg s cid uid).registry
          = s.registry.filter (fun x => decide (x ≠ cid)) ∧
      (handleDisposeSignal cfg s cid uid).freeList = s.freeList.erase cid) ∧
    (¬ (cfg.poolType = EObjectPoolType.Elastic ∧
        cfg.initialPoolSize ≤ (s.freeList.length : Int)) →
      (handleDisposeSignal cfg s cid uid).events
          = s.events ++ [PoolEvent.disposed cid] ∧
      (handleDisposeSignal cfg s cid uid).freeList = s.freeList ++ [cid] ∧
      (handleDisposeSignal cfg s cid uid).registry = s.registry) := by
  have hlook : alookup cid s.heap = some inst := by
    unfold mapGet at hmap
    by_cases hc : s.registry.contains cid
    · rwa [if_pos hc] at hmap
    · rw [if_neg hc] at hmap; exact absurd hmap (by simp)
  have hsig : handleDisposeSignal cfg s cid uid = freeInstance cfg s cid := by
    unfold handleDisposeSignal
    rw [hmap]
    simp [huid]
  have hstep := disposeOfInstance_eq { s with usedList := s.usedList.erase cid } cid inst hlook
  rw [hsig]
  by_cases hcond : cfg.poolType = EObjectPoolType.Elastic ∧
      cfg.initialPoolSize ≤ (s.freeList.length : Int)
  · refine ⟨fun _ => ?_, fun hn => absurd hcond hn⟩
    simp only [freeInstance]
    rw [hstep]
    rw [if_pos (by exact hcond)]
    unfold destroyInstance
    exact ⟨by simp, rfl, rfl⟩
  · refine ⟨fun hc => absurd hc hcond, fun _ => ?_⟩
    simp only [freeInstance]
    rw [hstep]
    rw [if_neg (by exact hcond)]
    exact ⟨rfl, rfl, rfl⟩

/-- Witness for the amended C3: size-1 Elastic pool after one `Use`, valid
signal `(0, 0)`: the shrink condition is false (Free List size 0 < 1), so the
instance is pushed back onto the Free List with only a `Dispose` logged. -/
theorem c3_amended_elastic_shrink_witness :
    ¬ ((⟨1, EObjectPoolType.Elastic⟩ : Config).poolType = EObjectPoolType.Elastic ∧
        (⟨1, EObjectPoolType.Elastic⟩ : Config).initialPoolSize
          ≤ (elasticPoolAfterOneUse.freeList.length : Int)) ∧
    ((handleDisposeSignal ⟨1, EObjectPoolType.Elastic⟩ elasticPoolAfterOneUse 0 0).events
        = elasticPoolAfterOneUse.events ++ [PoolEvent.disposed 0] ∧
      (handleDisposeSignal ⟨1, EObjectPoolType.Elastic⟩ elasticPoolAfterOneUse 0 0).freeList
        = elasticPoolAfterOneUse.freeList ++ [0] ∧
      (handleDisposeSignal ⟨1, EObjectPoolType.Elastic⟩ elasticPoolAfterOneUse 0 0).registry
        = elasticPoolAfterOneUse.registry) :=
  ⟨by decide,
    (c3_amended_elastic_shrink ⟨1, EObjectPoolType.Elastic⟩ elasticPoolAfterOneUse 0 0
      ⟨0, 0, true⟩ (by decide) rfl).2 (by decide)⟩

/-! ### Claim C4: DestroyPool teardown coverage -/

/-- Claim C4 is right about the intent and the code is wrong: `DestroyPool`
iterates `instances_list_` while `DestroyInstance` removes the current
element from that same list, so the traversal skips every other Free List
entry.  Failing input: a size-2 pool that is initialized and then destroyed —
the Free List is `[0, 1]`, instance 0 is destroyed, instance 1 is skipped: no
`Destroy` hook ever runs for it and it stays in the Registry, which therefore
is not left empty. -/
theorem c4_destroy_pool_skips_free_instances :
    ((init ⟨2, EObjectPoolType.Fixed⟩ initialState).map destroyPool).map
        PoolState.registry = some [1] ∧
    ((init ⟨2, EObjectPoolType.Fixed⟩ initialState).map destroyPool).map
        PoolState.events
      = some [PoolEvent.created 0, PoolEvent.created 1, PoolEvent.destroyed 0] ∧
    ((init ⟨2, EObjectPoolType.Fixed⟩ initialState).map destroyPool).map
        PoolState.freeList = some [] ∧
    ((init ⟨2, EObjectPoolType.Fixed⟩ initialState).map destroyPool).map
        PoolState.usedList = some [] ∧
    ((init ⟨2, EObjectPoolType.Fixed⟩ initialState).map destroyPool).map
        PoolState.isDestroyed = some true := by
  decide

/-! ### Claim C7: fatal-misuse guards -/

/-- Claim C7: `Use` after `DestroyPool` halts with a fatal error;
initialization (explicit `Init` or lazily via `Use`) halts with a fatal
error when the pool is already destroyed or the configured initial size is
not a positive integer; and `Init` is guarded to run at most once — a second
call returns leaving the state untouched. -/
theorem c7_fatal_guards :
    (∀ (cfg : Config) (s : PoolState), s.isDestroyed = true → use cfg s = none) ∧
    (∀ (cfg : Config) (s : PoolState), s.isStarted = false →
      s.isDestroyed = true ∨ cfg.initialPoolSize ≤ 0 → init cfg s = none) ∧
    (∀ (cfg : Config) (s : PoolState), s.isStarted = true → init cfg s = some s) := by
  refine ⟨?use, ?ini, ?again⟩
  case ini =>
    intro cfg s hs hbad
    unfold init
    rw [if_neg (by simp [hs])]
    by_cases hd : s.isDestroyed = true
    · rw [if_pos hd]
    · rcases hbad with hdt | hsize
      · exact absurd hdt hd
      · rw [if_neg hd, if_pos hsize]
  case again =>
    intro cfg s hs
    unfold init
    rw [if_pos hs]
  case use =>
    intro cfg s hd
    by_cases hs : s.isStarted
    · simp [use, useStarted, hs, hd]
    · simp [use, init, hs, hd]

/-! ### Initialization and the first N uses: exact state characterization -/

theorem initStep_inited (j : Nat) : initStep (initedState j) = initedState (j + 1) := by
  unfold initStep createInstance initedState
  simp only [aset_range_map_fresh, registryAdd_range, List.range_succ, List.map_append,
    List.map_cons, List.map_nil]

theorem initLoop_inited (n : Nat) : ∀ j, initLoop n (initedState j) = initedState (j + n) := by
  induction n with
  | zero => intro j; rfl
  | succ n ih =>
      intro j
      show initLoop n (initStep (initedState j)) = _
      rw [initStep_inited, ih (j + 1)]
      congr 1
      omega

theorem init_initialState (t : EObjectPoolType) (N : Nat) (hN : 0 < N) :
    init ⟨(N : Int), t⟩ initialState = some (initedState N) := by
  unfold init
  rw [if_neg (by decide), if_neg (by decide), if_neg (by
    simp only []
    omega)]
  rw [show ((N : Int)).toNat = N from Int.toNat_ofNat N]
  rw [show ({ initialState with isStarted := true } : PoolState) = initedState 0 from rfl]
  rw [initLoop_inited]
  rw [Nat.zero_add]

theorem initedState_eq_expectedState (N : Nat) : initedState N = expectedState N 0 := by
  unfold initedState expectedState
  simp only [Nat.sub_zero, List.range_zero, List.map_nil, List.append_nil]
  congr 1
  refine List.map_congr_left ?_
  intro i hi
  have h : ¬ (N ≤ i) := by have := List.mem_range.1 hi; omega
  simp [h]

/-- `Use` when an instance was allocated: run `Start` with the current
`UseId` of the allocated instance. -/
theorem useStarted_of_alloc (cfg : Config) (s s1 : PoolState) (cid uid : Nat)
    (hd : s.isDestroyed = false)
    (ha : allocateInstance cfg s = (s1, some cid))
    (hu : alookup cid s1.heap = some ⟨cid, uid, true⟩) :
    useStarted cfg s
      = some { s1 with events := s1.events ++ [PoolEvent.started cid uid] } := by
  unfold useStarted
  rw [if_neg (by simp [hd])]
  simp only [ha, hu]

/-- `Use` when nothing was allocated: no `Start`, state as the allocator
left it. -/
theorem useStarted_of_alloc_none (cfg : Config) (s s1 : PoolState)
    (hd : s.isDestroyed = false)
    (ha : allocateInstance cfg s = (s1, none)) :
    useStarted cfg s = some s1 := by
  unfold useStarted
  rw [if_neg (by simp [hd])]
  simp only [ha]

/-- Unfolding `AllocateInstance` on a non-empty Free List: pop the last
element, push it onto the back of the Used List, mark it active. -/
theorem allocateInstance_pop (cfg : Config) (s : PoolState) (l : List Nat) (cid : Nat)
    (h : s.freeList = l ++ [cid]) :
    allocateInstance cfg s
      = (setActive { s with freeList := l, usedList := s.usedList ++ [cid] } cid true,
         some cid) := by
  unfold allocateInstance
  rw [h, List.getLast?_concat, List.dropLast_concat]

/-- Unfolding `IsActive` mutation when the instance record exists. -/
theorem setActive_eq (s : PoolState) (cid : Nat) (b : Bool) (inst : Inst)
    (h : alookup cid s.heap = some inst) :
    setActive s cid b
      = { s with heap := aset cid ⟨inst.creationId, inst.useId, b⟩ s.heap } := by
  unfold setActive
  rw [h]

/-- `setActive` only touches the heap. -/
theorem setActive_fields (s : PoolState) (cid : Nat) (b : Bool) :
    (setActive s cid b).registry = s.registry ∧
    (setActive s cid b).freeList = s.freeList ∧
    (setActive s cid b).usedList = s.usedList ∧
    (setActive s cid b).creationId = s.creationId ∧
    (setActive s cid b).isDestroyed = s.isDestroyed ∧
    (setActive s cid b).isStarted = s.isStarted ∧
    (setActive s cid b).events = s.events := by
  unfold setActive
  cases alookup cid s.heap <;> simp

theorem allocate_expectedState (t : EObjectPoolType) (N k : Nat) (hk : k < N) :
    allocateInstance ⟨(N : Int), t⟩ (expectedState N k)
      = ({ heap := (List.range N).map fun i => (i, ⟨i, 0, decide (N - (k + 1) ≤ i)⟩),
           registry := List.range N,
           freeList := List.range (N - k - 1),
           usedList := ((List.range k).map fun j => N - 1 - j) ++ [N - k - 1],
           creationId := N,
           isDestroyed := false,
           isStarted := true,
           events := (List.range N).map PoolEvent.created
             ++ (List.range k).map fun j => PoolEvent.started (N - 1 - j) 0 },
         some (N - k - 1)) := by
  have hm : N - k = (N - k - 1) + 1 := by omega
  have hmN : N - k - 1 < N := by omega
  have hfree : (expectedState N k).freeList = List.range (N - k - 1) ++ [N - k - 1] := by
    show List.range (N - k) = _
    conv_lhs => rw [hm]
    exact List.range_succ _
  rw [allocateInstance_pop ⟨(N : Int), t⟩ (expectedState N k) _ _ hfree]
  have hlook : alookup (N - k - 1)
      ({ expectedState N k with
          freeList := List.range (N - k - 1),
          usedList := (expectedState N k).usedList ++ [N - k - 1] } : PoolState).heap
      = some ⟨N - k - 1, 0, decide (N - k ≤ N - k - 1)⟩ := by
    show alookup (N - k - 1)
        ((List.range N).map fun i => (i, ⟨i, 0, decide (N - k ≤ i)⟩)) = _
    exact alookup_range_map _ N _ hmN
  rw [setActive_eq _ _ _ _ hlook]
  simp only [Prod.mk.injEq]
  refine ⟨?_, trivial⟩
  congr 1
  show aset (N - k - 1) ⟨N - k - 1, 0, true⟩
      ((List.range N).map fun i => (i, ⟨i, 0, decide (N - k ≤ i)⟩)) = _
  rw [aset_range_map _ N _ _ hmN]
  refine List.map_congr_left ?_
  intro i hi
  have hiN := List.mem_range.1 hi
  by_cases hic : i = N - k - 1
  · subst hic
    have h1 : N - (k + 1) ≤ N - k - 1 := by omega
    simp [h1]
  · have h2 : (N - k ≤ i) ↔ (N - (k + 1) ≤ i) := by omega
    simp only [hic, if_false]
    rw [decide_eq_decide.2 h2]

theorem useStarted_expectedState (t : EObjectPoolType) (N k : Nat) (hk : k < N) :
    useStarted ⟨(N : Int), t⟩ (expectedState N k) = some (expectedState N (k + 1)) := by
  have halloc := allocate_expectedState t N k hk
  have hu : alookup (N - k - 1)
      ((List.range N).map fun i => (i, (⟨i, 0, decide (N - (k + 1) ≤ i)⟩ : Inst)))
      = some ⟨N - k - 1, 0, true⟩ := by
    rw [alookup_range_map _ N _ (by omega)]
    have h1 : N - (k + 1) ≤ N - k - 1 := by omega
    simp [h1]
  have hfin := useStarted_of_alloc ⟨(N : Int), t⟩ (expectedState N k) _ (N - k - 1) 0
    rfl halloc hu
  rw [hfin]
  refine congrArg some ?_
  have hsub : N - 1 - k = N - k - 1 := by omega
  show ({ heap := (List.range N).map fun i => (i, ⟨i, 0, decide (N - (k + 1) ≤ i)⟩),
          registry := List.range N,
          freeList := List.range (N - k - 1),
          usedList := ((List.range k).map fun j => N - 1 - j) ++ [N - k - 1],
          creationId := N,
          isDestroyed := false,
          isStarted := true,
          events := ((List.range N).map PoolEvent.created
            ++ (List.range k).map fun j => PoolEvent.started (N - 1 - j) 0)
            ++ [PoolEvent.started (N - k - 1) 0] } : PoolState)
      = expectedState N (k + 1)
  unfold expectedState
  rw [show N - (k + 1) = N - k - 1 from by omega, List.range_succ, List.map_append,
    List.map_append, List.append_assoc]
  simp only [List.map_cons, List.map_nil]
  rw [hsub]

theorem useTimes_expectedState (t : EObjectPoolType) (N : Nat) (hN : 0 < N) :
    ∀ k, 1 ≤ k → k ≤ N → useTimes ⟨(N : Int), t⟩ k = some (expectedState N k) := by
  intro k
  induction k with
  | zero => intro h1 _; exact absurd h1 (by omega)
  | succ k ih =>
      intro _ hk1
      by_cases hk0 : k = 0
      · subst hk0
        show use ⟨(N : Int), t⟩ initialState = some (expectedState N 1)
        unfold use
        rw [if_neg (by decide), init_initialState t N hN]
        show useStarted ⟨(N : Int), t⟩ (initedState N) = _
        rw [initedState_eq_expectedState]
        exact useStarted_expectedState t N 0 hN
      · show (useTimes ⟨(N : Int), t⟩ k).bind (use ⟨(N : Int), t⟩) = _
        rw [ih (by omega) (by omega)]
        show use ⟨(N : Int), t⟩ (expectedState N k) = _
        unfold use
        rw [if_pos (show (expectedState N k).isStarted = true from rfl)]
        show useStarted ⟨(N : Int), t⟩ (expectedState N k) = _
        exact useStarted_expectedState t N k (by omega)

theorem expectedState_freeList_exhausted (N : Nat) :
    (expectedState N N).freeList = [] := by
  show List.range (N - N) = _
  simp

theorem failsilent_exhausted (N : Nat) :
    use ⟨(N : Int), EObjectPoolType.FailSilent⟩ (expectedState N N)
      = some (expectedState N N) := by
  unfold use
  rw [if_pos (show (expectedState N N).isStarted = true from rfl)]
  show useStarted _ (expectedState N N) = _
  refine useStarted_of_alloc_none _ _ _ rfl ?_
  unfold allocateInstance
  rw [expectedState_freeList_exhausted]
  rfl

/-- The head of the Used List after `N` uses is the first-allocated
instance, `N - 1`. -/
theorem desc_head (N : Nat) (hN : 0 < N) :
    ((List.range N).map fun j => N - 1 - j).head? = some (N - 1) := by
  obtain ⟨m, rfl⟩ : ∃ m, N = m + 1 := ⟨N - 1, by omega⟩
  rw [List.range_succ_eq_map]
  simp

/-- Unfolding the Fixed branch of `AllocateInstance`: Free List empty, shift
the front of the Used List, push it to the back, dispose, reactivate. -/
theorem allocateInstance_fixed (cfg : Config) (s : PoolState) (cid : Nat)
    (hp : cfg.poolType = EObjectPoolType.Fixed)
    (hfree : s.freeList = [])
    (hused : s.usedList.head? = some cid) :
    allocateInstance cfg s
      = (setActive (disposeOfInstance
          { s with usedList := s.usedList.tail ++ [cid] } cid) cid true, some cid) := by
  unfold allocateInstance
  rw [hfree, hp, hused]
  rfl

/-- The `(N+1)`-th `Use` on a full Fixed pool: the front of the Used List is
force-disposed (its `UseId` advances exactly once) and reactivated at the
back, with no registry or creation-counter change. -/
theorem fixed_forced_recycle (N : Nat) (hN : 0 < N) :
    ∃ s', use ⟨(N : Int), EObjectPoolType.Fixed⟩ (expectedState N N) = some s' ∧
      s'.registry = (expectedState N N).registry ∧
      s'.creationId = (expectedState N N).creationId ∧
      s'.usedList = (expectedState N N).usedList.tail ++ [N - 1] ∧
      s'.freeList = (expectedState N N).freeList ∧
      s'.events = (expectedState N N).events
        ++ [PoolEvent.disposed (N - 1), PoolEvent.started (N - 1) 1] ∧
      (alookup (N - 1) s'.heap).map Inst.useId = some 1 := by
  have halloc := allocateInstance_fixed ⟨(N : Int), EObjectPoolType.Fixed⟩
    (expectedState N N) (N - 1) rfl (expectedState_freeList_exhausted N) (desc_head N hN)
  have hlook1 : alookup (N - 1)
      ({ expectedState N N with
          usedList := (expectedState N N).usedList.tail ++ [N - 1] } : PoolState).heap
      = some ⟨N - 1, 0, decide (N - N ≤ N - 1)⟩ := by
    show alookup (N - 1)
        ((List.range N).map fun i => (i, ⟨i, 0, decide (N - N ≤ i)⟩)) = _
    exact alookup_range_map _ N _ (by omega)
  rw [disposeOfInstance_eq _ _ _ hlook1] at halloc
  have hlook2 : alookup (N - 1)
      (aset (N - 1) ⟨N - 1, 1, false⟩
        ((List.range N).map fun i => (i, (⟨i, 0, decide (N - N ≤ i)⟩ : Inst))))
      = some ⟨N - 1, 1, false⟩ := by
    rw [aset_range_map _ N _ _ (by omega), alookup_range_map _ N _ (by omega)]
    simp
  rw [setActive_eq _ _ _ _ hlook2] at halloc
  have hu : alookup (N - 1)
      (aset (N - 1) ⟨N - 1, 1, true⟩
        (aset (N - 1) ⟨N - 1, 1, false⟩
          ((List.range N).map fun i => (i, (⟨i, 0, decide (N - N ≤ i)⟩ : Inst)))))
      = some ⟨N - 1, 1, true⟩ := by
    rw [aset_range_map _ N _ _ (by omega), aset_range_map _ N _ _ (by omega),
      alookup_range_map _ N _ (by omega)]
    simp
  have hfin := useStarted_of_alloc ⟨(N : Int), EObjectPoolType.Fixed⟩
    (expectedState N N) _ (N - 1) 1 rfl halloc hu
  have huse : use ⟨(N : Int), EObjectPoolType.Fixed⟩ (expectedState N N)
      = useStarted ⟨(N : Int), EObjectPoolType.Fixed⟩ (expectedState N N) := by
    unfold use
    rw [if_pos (show (expectedState N N).isStarted = true from rfl)]
  refine ⟨_, huse.trans hfin, rfl, rfl, rfl, rfl, ?_, ?_⟩
  · show ((expectedState N N).events ++ [PoolEvent.disposed (N - 1)])
        ++ [PoolEvent.started (N - 1) 1] = _
    rw [List.append_assoc]
    rfl
  · show (alookup (N - 1)
        (aset (N - 1) ⟨N - 1, 1, true⟩
          (aset (N - 1) ⟨N - 1, 1, false⟩
            ((List.range N).map fun i =>
              (i, (⟨i, 0, decide (N - N ≤ i)⟩ : Inst)))))).map Inst.useId = some 1
    rw [hu]
    rfl

/-! ### Claims C5, C6, C8, C10 -/

/-- Claim C5: Fixed strategy, size `N > 0`: across a sequence of `N + 1`
overlapping `Use` calls the Registry never holds more than `N` instances, and
the `(N+1)`-th `Use` force-disposes the first-allocated instance (the front
of the Used List, creation id `N - 1`): its `Dispose` hook runs before the
reactivating `Start` hook, its `UseId` goes from 0 to exactly 1, and it moves
to the back of the Used List with registry and creation counter unchanged. -/
theorem c5_fixed_never_exceeds (N : Nat) (hN : 0 < N) :
    (∀ k, k ≤ N + 1 → ∃ s, useTimes ⟨(N : Int), EObjectPoolType.Fixed⟩ k = some s ∧
        s.registry.length ≤ N) ∧
    (∃ sN sN1,
      useTimes ⟨(N : Int), EObjectPoolType.Fixed⟩ N = some sN ∧
      useTimes ⟨(N : Int), EObjectPoolType.Fixed⟩ (N + 1) = some sN1 ∧
      sN.usedList.head? = some (N - 1) ∧
      (alookup (N - 1) sN.heap).map Inst.useId = some 0 ∧
      (alookup (N - 1) sN1.heap).map Inst.useId = some 1 ∧
      sN1.events = sN.events
        ++ [PoolEvent.disposed (N - 1), PoolEvent.started (N - 1) 1] ∧
      sN1.usedList = sN.usedList.tail ++ [N - 1] ∧
      sN1.registry = sN.registry ∧
      sN1.creationId = sN.creationId) := by
  obtain ⟨s', hs', hreg, hcid, husedL, _, hev, huid⟩ := fixed_forced_recycle N hN
  have hN1 : useTimes ⟨(N : Int), EObjectPoolType.Fixed⟩ (N + 1) = some s' := by
    show (useTimes _ N).bind _ = _
    rw [useTimes_expectedState EObjectPoolType.Fixed N hN N hN le_rfl]
    exact hs'
  constructor
  · intro k hk
    by_cases h0 : k = 0
    · subst h0
      exact ⟨initialState, rfl, by simp [initialState]⟩
    · by_cases hkN : k ≤ N
      · refine ⟨expectedState N k, useTimes_expectedState _ N hN k (by omega) hkN, ?_⟩
        show (List.range N).length ≤ N
        simp
      · have hkeq : k = N + 1 := by omega
        subst hkeq
        refine ⟨s', hN1, ?_⟩
        rw [hreg]
        show (List.range N).length ≤ N
        simp
  · refine ⟨expectedState N N, s',
      useTimes_expectedState EObjectPoolType.Fixed N hN N hN le_rfl, hN1,
      desc_head N hN, ?_, huid, hev, husedL, hreg, hcid⟩
    show (alookup (N - 1)
        ((List.range N).map fun i => (i, ⟨i, 0, decide (N - N ≤ i)⟩))).map
          Inst.useId = some 0
    rw [alookup_range_map _ N _ (by omega)]
    rfl

/-- Claim C6: FailSilent strategy, size `N > 0`: after `N` overlapping `Use`
calls the Free List is empty, and the `(N+1)`-th `Use` returns the state
untouched — no `Start` hook, no new instance, registry and creation counter
unchanged, and no error (the result is `some`, not `none`). -/
theorem c6_failsilent_exhaustion (N : Nat) (hN : 0 < N) :
    ∃ s, useTimes ⟨(N : Int), EObjectPoolType.FailSilent⟩ N = some s ∧
      s.freeList = [] ∧
      use ⟨(N : Int), EObjectPoolType.FailSilent⟩ s = some s ∧
      useTimes ⟨(N : Int), EObjectPoolType.FailSilent⟩ (N + 1)
        = useTimes ⟨(N : Int), EObjectPoolType.FailSilent⟩ N := by
  have hNs := useTimes_expectedState EObjectPoolType.FailSilent N hN N hN le_rfl
  refine ⟨expectedState N N, hNs, expectedState_freeList_exhausted N,
    failsilent_exhausted N, ?_⟩
  show (useTimes _ N).bind _ = _
  rw [hNs]
  show use _ (expectedState N N) = _
  rw [failsilent_exhausted N]

/-- Claim C8: for every strategy and every positive size `N`, before
initialization the Registry is empty; right after initialization — explicit
`Init` or lazily via the first `Use` — the Registry holds exactly the `N`
eagerly constructed instances (one `Create` hook call each, in creation
order) and all of them sit on the Free List. -/
theorem c8_init_eager (t : EObjectPoolType) (N : Nat) (hN : 0 < N) :
    initialState.registry.length = 0 ∧
    (∃ s, init ⟨(N : Int), t⟩ initialState = some s ∧
      s.registry = List.range N ∧
      s.registry.length = N ∧
      s.freeList = List.range N ∧
      s.usedList = [] ∧
      s.events = (List.range N).map PoolEvent.created) ∧
    (∃ s', use ⟨(N : Int), t⟩ initialState = some s' ∧ s'.registry.length = N) := by
  refine ⟨rfl,
    ⟨initedState N, init_initialState t N hN, rfl, ?_, rfl, rfl, rfl⟩,
    ⟨expectedState N 1, ?_, ?_⟩⟩
  · show (List.range N).length = N
    simp
  · exact useTimes_expectedState t N hN 1 le_rfl hN
  · show (List.range N).length = N
    simp

/-- Claim C10: allocation from a non-empty Free List is LIFO — `Use` pops
the most recently pushed creation id off the back of the Free List and
appends it to the Used List; consequently, right after initialization with
size `N` the first `Use` allocates the instance with creation id `N - 1`
(not 0). -/
theorem c10_lifo_allocation :
    (∀ (cfg : Config) (s : PoolState) (l : List Nat) (cid : Nat),
        s.freeList = l ++ [cid] →
        (allocateInstance cfg s).2 = some cid ∧
        (allocateInstance cfg s).1.freeList = l ∧
        (allocateInstance cfg s).1.usedList = s.usedList ++ [cid]) ∧
    (∀ (t : EObjectPoolType) (N : Nat), 0 < N →
        ∃ s', use ⟨(N : Int), t⟩ initialState = some s' ∧
          s'.usedList = [N - 1] ∧
          (alookup (N - 1) s'.heap).map Inst.useId = some 0) := by
  constructor
  · intro cfg s l cid h
    rw [allocateInstance_pop cfg s l cid h]
    exact ⟨rfl, (setActive_fields _ _ _).2.1, (setActive_fields _ _ _).2.2.1⟩
  · intro t N hN
    refine ⟨expectedState N 1, useTimes_expectedState t N hN 1 le_rfl hN, ?_, ?_⟩
    · show (List.range 1).map (fun j => N - 1 - j) = [N - 1]
      rfl
    · show (alookup (N - 1)
          ((List.range N).map fun i => (i, ⟨i, 0, decide (N - 1 ≤ i)⟩))).map
            Inst.useId = some 0
      rw [alookup_range_map _ N _ (by omega)]
      rfl

/-! ### Witnesses for the hypothesized claim theorems -/

/-- Witness for C5 at `N = 2`. -/
theorem c5_fixed_never_exceeds_witness :
    0 < 2 ∧
    ((∀ k, k ≤ 2 + 1 →
        ∃ s, useTimes ⟨((2 : Nat) : Int), EObjectPoolType.Fixed⟩ k = some s ∧
          s.registry.length ≤ 2) ∧
     (∃ sN sN1,
        useTimes ⟨((2 : Nat) : Int), EObjectPoolType.Fixed⟩ 2 = some sN ∧
        useTimes ⟨((2 : Nat) : Int), EObjectPoolType.Fixed⟩ (2 + 1) = some sN1 ∧
        sN.usedList.head? = some (2 - 1) ∧
        (alookup (2 - 1) sN.heap).map Inst.useId = some 0 ∧
        (alookup (2 - 1) sN1.heap).map Inst.useId = some 1 ∧
        sN1.events = sN.events
          ++ [PoolEvent.disposed (2 - 1), PoolEvent.started (2 - 1) 1] ∧
        sN1.usedList = sN.usedList.tail ++ [2 - 1] ∧
        sN1.registry = sN.registry ∧
        sN1.creationId = sN.creationId)) :=
  ⟨by decide, c5_fixed_never_exceeds 2 (by decide)⟩

/-- Witness for C6 at `N = 1`. -/
theorem c6_failsilent_exhaustion_witness :
    0 < 1 ∧
    ∃ s, useTimes ⟨((1 : Nat) : Int), EObjectPoolType.FailSilent⟩ 1 = some s ∧
      s.freeList = [] ∧
      use ⟨((1 : Nat) : Int), EObjectPoolType.FailSilent⟩ s = some s ∧
      useTimes ⟨((1 : Nat) : Int), EObjectPoolType.FailSilent⟩ (1 + 1)
        = useTimes ⟨((1 : Nat) : Int), EObjectPoolType.FailSilent⟩ 1 :=
  ⟨by decide, c6_failsilent_exhaustion 1 (by decide)⟩

/-- Witness for C7: a destroyed pool rejects `Use` and `Init`; size 0 is
rejected; a second `Init` on a started pool changes nothing. -/
theorem c7_fatal_guards_witness :
    use ⟨1, EObjectPoolType.Fixed⟩ (destroyPool initialState) = none ∧
    init ⟨0, EObjectPoolType.Fixed⟩ initialState = none ∧
    init ⟨1, EObjectPoolType.Fixed⟩ (destroyPool initialState) = none ∧
    init ⟨1, EObjectPoolType.Elastic⟩ elasticPoolAfterOneUse
      = some elasticPoolAfterOneUse :=
  ⟨c7_fatal_guards.1 ⟨1, EObjectPoolType.Fixed⟩ (destroyPool initialState) (by decide),
   c7_fatal_guards.2.1 ⟨0, EObjectPoolType.Fixed⟩ initialState (by decide)
     (Or.inr (by decide)),
   c7_fatal_guards.2.1 ⟨1, EObjectPoolType.Fixed⟩ (destroyPool initialState) (by decide)
     (Or.inl (by decide)),
   c7_fatal_guards.2.2 ⟨1, EObjectPoolType.Elastic⟩ elasticPoolAfterOneUse (by decide)⟩

/-- Witness for C8 at `N = 2`, Unbounded strategy. -/
theorem c8_init_eager_witness :
    0 < 2 ∧
    (initialState.registry.length = 0 ∧
     (∃ s, init ⟨((2 : Nat) : Int), EObjectPoolType.Unbounded⟩ initialState = some s ∧
       s.registry = List.range 2 ∧
       s.registry.length = 2 ∧
       s.freeList = List.range 2 ∧
       s.usedList = [] ∧
       s.events = (List.range 2).map PoolEvent.created) ∧
     (∃ s', use ⟨((2 : Nat) : Int), EObjectPoolType.Unbounded⟩ initialState = some s' ∧
       s'.registry.length = 2)) :=
  ⟨by decide, c8_init_eager EObjectPoolType.Unbounded 2 (by decide)⟩

/-- Witness for C10: a size-2 pool right after initialization has Free List
`[0, 1]`; allocation pops creation id 1 (the back), and the first `Use` of a
fresh size-2 Unbounded pool starts instance `2 - 1 = 1` with `UseId` 0. -/
theorem c10_lifo_allocation_witness :
    ((initedState 2).freeList = [0] ++ [1] ∧
      (allocateInstance ⟨2, EObjectPoolType.Fixed⟩ (initedState 2)).2 = some 1 ∧
      (allocateInstance ⟨2, EObjectPoolType.Fixed⟩ (initedState 2)).1.freeList = [0] ∧
      (allocateInstance ⟨2, EObjectPoolType.Fixed⟩ (initedState 2)).1.usedList
        = (initedState 2).usedList ++ [1]) ∧
    (∃ s', use ⟨((2 : Nat) : Int), EObjectPoolType.Unbounded⟩ initialState = some s' ∧
      s'.usedList = [2 - 1] ∧
      (alookup (2 - 1) s'.heap).map Inst.useId = some 0) :=
  ⟨⟨by decide,
    (c10_lifo_allocation.1 ⟨2, EObjectPoolType.Fixed⟩ (initedState 2) [0] 1 (by decide)).1,
    (c10_lifo_allocation.1 ⟨2, EObjectPoolType.Fixed⟩ (initedState 2) [0] 1 (by decide)).2.1,
    (c10_lifo_allocation.1 ⟨2, EObjectPoolType.Fixed⟩ (initedState 2) [0] 1 (by decide)).2.2⟩,
   c10_lifo_allocation.2 EObjectPoolType.Unbounded 2 (by decide)⟩
